import Mathlib

/-!
Verification of the irccloud-watcher repository against its specification.

The Go sources are shallowly embedded: pure functions become Lean functions,
the SQLite message store becomes a list of rows with explicit insert/query
functions, and the stream processor becomes a state-transition function on an
explicit client-state record.  Machine integers (`int64`) are modelled as
`Int`; the comparisons and maxima performed by the code stay far from the
64-bit range, so no wrap-around modelling is needed.
-/

/- ===================== internal/storage/sqlite.go ===================== -/

/-- Model of `storage.Message` from `internal/storage/sqlite.go`.
The table schema is `(id INTEGER PRIMARY KEY AUTOINCREMENT, channel, timestamp,
sender, message, date)`; note that it has **no** event-id column.
`Timestamp` (a Go `time.Time`) is modelled as Unix nanoseconds. -/
structure Message where
  id : Nat
  channel : String
  timestamp : Int
  sender : String
  message : String
  date : String
deriving Repr, DecidableEq

/-- The `messages` table, modelled as the list of stored rows in insertion
order.  `AUTOINCREMENT` ids are assigned as `row count + 1`. -/
abbrev MessageTable := List Message

/-- Model of `DB.InsertMessage` (`sqlite.go`): a plain
`INSERT INTO messages (channel, timestamp, sender, message, date) VALUES ...`.
There is no uniqueness constraint and no ON CONFLICT clause, so the insert
unconditionally appends a row. -/
def insertMessage (rows : MessageTable) (m : Message) : MessageTable :=
  rows ++ [{ m with id := rows.length + 1 }]

/-- Model of `DB.GetMessagesByDate` (`sqlite.go`): `SELECT * FROM messages WHERE date = ?`. -/
def getMessagesByDate (rows : MessageTable) (date : String) : List Message :=
  rows.filter (fun m => m.date == date)

/-- Model of `DB.DeleteMessagesByDate` (`sqlite.go`): `DELETE FROM messages WHERE date = ?`. -/
def deleteMessagesByDate (rows : MessageTable) (date : String) : MessageTable :=
  rows.filter (fun m => m.date != date)

/- ===================== internal/api: admission filter ===================== -/

/-- The live-path admission condition from `processMessage` (`websocket.go`):
`ircMsg.Type == "buffer_msg" && !c.ignoredChannelSet[ircMsg.Chan] &&
 (len(c.channels) == 0 || c.channelSet[ircMsg.Chan])`.
`channelSet` / `ignoredChannelSet` are the membership sets that `Run` builds
from the configured channel lists, so set lookup is list membership. -/
def acceptsLive (channels ignoredChannels : List String) (ty ch : String) : Bool :=
  ty == "buffer_msg" && !(ignoredChannels.contains ch) &&
    (channels.isEmpty || channels.contains ch)

/-- The backfill-path skip condition from `processBacklog` (`websocket.go`):
`ircMsg.Type != "buffer_msg" || c.ignoredChannelSet[ircMsg.Chan] ||
 (len(c.channels) > 0 && !c.channelSet[ircMsg.Chan])`. -/
def skipsBacklog (channels ignoredChannels : List String) (ty ch : String) : Bool :=
  ty != "buffer_msg" || ignoredChannels.contains ch ||
    (!channels.isEmpty && !(channels.contains ch))

/- ===================== internal/api/connection.go: backoff ===================== -/

/-- The int64 range of Go's `time.Duration`. -/
def int64Min : Int := -9223372036854775808

/-- Largest `time.Duration` value. -/
def int64Max : Int := 9223372036854775807

/-- Go's `time.Duration(x)` conversion of a `float64` x, as compiled by the
gc compiler on amd64, applied to the exact integer products arising in the
backoff computation.  In range, the conversion truncates (exact on
integers).  Out of range, the Go specification leaves the result
implementation-dependent; gc on amd64 emits `cvttsd2si`, which returns the
"integer indefinite" value minInt64 for every out-of-range or infinite
source.  The products `float64(initialDelay)·multiplier^retryCount` are
exactly representable `float64` integers whenever finite (10⁹·2^k is exact
for every k ≤ 994; beyond that the float overflows to +Inf, which also
converts to minInt64 — reproduced here because the exact product then also
exceeds int64Max). -/
def float64ToInt64 (x : Int) : Int :=
  if int64Min ≤ x ∧ x ≤ int64Max then x else int64Min

/-- Model of `calculateBackoffDelay` (`connection.go`):
`delay := time.Duration(float64(initialDelay) * math.Pow(multiplier, float64(retryCount)))`
capped by `delay = min(delay, maxDelay)`.  Durations are int64 nanosecond
counts (`time.ParseDuration "1s" = 10^9`, `"30s" = 3*10^10`,
`"5m" = 3*10^11`); the configured multiplier is `2.0`, for which the
`float64` multiplication and `math.Pow` are exact, so the product is the
exact integer `initialDelayNs * multiplier^retryCount` and all observable
behaviour — including the int64 overflow of the `time.Duration` conversion
at large retry counts — is carried by `float64ToInt64`. -/
def calculateBackoffDelay (initialDelayNs maxDelayNs multiplier : Int)
    (retryCount : Nat) : Int :=
  min (float64ToInt64 (initialDelayNs * multiplier ^ retryCount)) maxDelayNs

/- ===================== internal/api: WebSocket URL ===================== -/

/-- The documented fallback URL returned by `buildWebSocketURL` when the
host or path is empty or `url.Parse` fails. -/
def fallbackWebSocketURL : String := "wss://www.irccloud.com/?since_id=0&stream_id=0"

/-- Host characters for which the `net/url` round-trip is the identity:
letters, digits, `-` and `.` (never escaped by `encodeHost`, never split as
userinfo, port, path, query or fragment). -/
def isSimpleHostChar (c : Char) : Bool :=
  c.isAlphanum || c == '-' || c == '.'

/-- Path characters for which the `net/url` round-trip is the identity:
RFC 3986 unreserved characters plus `/` (never escaped by `encodePath`,
never split as query or fragment). -/
def isSimplePathChar (c : Char) : Bool :=
  c.isAlphanum || c == '-' || c == '.' || c == '_' || c == '~' || c == '/'

/-- Characters that would end or re-interpret the authority component of
`wss://{host}{path}`: path/query/fragment delimiters, the userinfo
separator, the port separator and the percent-escape introducer. -/
def isHostDelimChar (c : Char) : Bool :=
  c == '/' || c == '?' || c == '#' || c == '@' || c == ':' || c == '%'

/-- Model of `buildWebSocketURL` (`websocket.go` / `part_005`).  With an
empty host or path the code returns the fallback URL directly.  Otherwise
it builds `fmt.Sprintf("wss://%s%s", host, path)`, parses it with
`url.Parse` (falling back on error), sets the query keys `since_id=0` and
`stream_id=0` (`url.Values.Encode` emits keys sorted, i.e. exactly
`since_id=0&stream_id=0`) and re-serialises with `URL.String`.  The
`net/url` library is modelled on two documented fragments and left
unmodelled (`none`) elsewhere:
* for hosts of `isSimpleHostChar` characters and paths starting with `/`
  made of `isSimplePathChar` characters, parsing splits the authority at
  the path's leading `/`, the empty query gains the two sorted keys, and
  `URL.String` re-emits every character unescaped, so the result is plain
  concatenation;
* a space inside such a host (path still simple, host free of
  `isHostDelimChar`, so the authority is exactly the host and is not split
  into userinfo or port) makes `url.Parse` fail with
  "invalid character in host name", and the code returns the fallback. -/
def buildWebSocketURL (websocketHost websocketPath : String) : Option String :=
  if websocketHost = "" ∨ websocketPath = "" then
    some fallbackWebSocketURL
  else if websocketHost.data.all isSimpleHostChar
      && websocketPath.data.head? == some '/'
      && websocketPath.data.all isSimplePathChar then
    some ("wss://" ++ websocketHost ++ websocketPath ++ "?since_id=0&stream_id=0")
  else if websocketHost.data.contains ' '
      && !(websocketHost.data.any isHostDelimChar)
      && websocketPath.data.head? == some '/'
      && websocketPath.data.all isSimplePathChar then
    some fallbackWebSocketURL
  else
    none

/- ===================== internal/utils: IRC message cleaner ===================== -/

/-- The single-character formatting markers matched by `ircColorRegex`
(`utils`): bold `\x02`, underline `\x1F`, italic `\x1D`, strikethrough
`\x1E`, reset `\x0F`. -/
def isFormattingCtrl (c : Char) : Bool :=
  c == Char.ofNat 2 || c == Char.ofNat 31 || c == Char.ofNat 29 ||
    c == Char.ofNat 30 || c == Char.ofNat 15

/-- Greedily consume one more decimal digit, as the second digit of a
`\d{1,2}` group (ASCII digits, like Go's regexp `\d`). -/
def dropSecondDigit : List Char → List Char
  | [] => []
  | c :: rest => if c.isDigit then rest else c :: rest

/-- Consume an optional `,\d{1,2}` background-colour group: the comma is
consumed only when at least one digit follows it. -/
def dropBgPair : List Char → List Char
  | c :: d :: rest =>
    if c == ',' && d.isDigit then dropSecondDigit rest else c :: d :: rest
  | l => l

/-- Consume the optional `(?:\d{1,2}(?:,\d{1,2})?)?` argument block that may
follow a colour byte `\x03`. -/
def dropColorArgs : List Char → List Char
  | [] => []
  | d :: rest => if d.isDigit then dropBgPair (dropSecondDigit rest) else d :: rest

theorem dropSecondDigit_length_le (l : List Char) :
    (dropSecondDigit l).length ≤ l.length := by
  cases l with
  | nil => simp [dropSecondDigit]
  | cons c rest =>
    simp only [dropSecondDigit]
    split <;> simp

theorem dropBgPair_length_le (l : List Char) : (dropBgPair l).length ≤ l.length := by
  match l with
  | [] => simp [dropBgPair]
  | [c] => simp [dropBgPair]
  | c :: d :: rest =>
    simp only [dropBgPair]
    split
    · have := dropSecondDigit_length_le rest
      simp only [List.length_cons]
      omega
    · exact Nat.le_refl _

theorem dropColorArgs_length_le (l : List Char) :
    (dropColorArgs l).length ≤ l.length := by
  cases l with
  | nil => simp [dropColorArgs]
  | cons d rest =>
    simp only [dropColorArgs]
    split
    · have h1 := dropBgPair_length_le (dropSecondDigit rest)
      have h2 := dropSecondDigit_length_le rest
      simp only [List.length_cons]
      omega
    · exact Nat.le_refl _

/-- Model of `utils.RemoveIRCColors` at the character-list level: replace every match
of `\x03(?:\d{1,2}(?:,\d{1,2})?)?|\x02|\x1F|\x1D|\x1E|\x0F` by the empty
string, scanning leftmost-first as Go's `ReplaceAllString` does.  Every match
starts with a control byte; a position holding any other character is copied
through unchanged. -/
def removeColorCodes : List Char → List Char
  | [] => []
  | c :: rest =>
    if c == Char.ofNat 3 then removeColorCodes (dropColorArgs rest)
    else if isFormattingCtrl c then removeColorCodes rest
    else c :: removeColorCodes rest
termination_by l => l.length
decreasing_by
  · exact Nat.lt_succ_of_le (dropColorArgs_length_le rest)
  · exact Nat.lt_succ_of_le (Nat.le_refl _)
  · exact Nat.lt_succ_of_le (Nat.le_refl _)

/-- Model of `unicode.IsSpace`, as used by `strings.TrimSpace`: the Latin-1
white-space characters plus the Unicode `White_Space` code points. -/
def isSpaceChar (c : Char) : Bool :=
  let n := c.toNat
  n == 9 || n == 10 || n == 11 || n == 12 || n == 13 || n == 32 ||
    n == 0x85 || n == 0xA0 || n == 0x1680 ||
    (decide (0x2000 ≤ n) && decide (n ≤ 0x200A)) ||
    n == 0x2028 || n == 0x2029 || n == 0x202F || n == 0x205F || n == 0x3000

/-- Model of `strings.TrimSpace` at the character-list level: drop white space from
the front, then from the back. -/
def trimSpace (l : List Char) : List Char :=
  ((l.dropWhile isSpaceChar).reverse.dropWhile isSpaceChar).reverse

/-- Model of `utils.RemoveIRCColors`. -/
def RemoveIRCColors (s : String) : String := String.mk (removeColorCodes s.data)

/-- Model of `utils.CleanIRCMessage`: strip the IRC control sequences, then trim
leading and trailing white space. -/
def CleanIRCMessage (s : String) : String :=
  String.mk (trimSpace (RemoveIRCColors s).data)

/- ------------- cleaner lemmas ------------- -/

/-- A character that starts some match of `ircColorRegex`: the colour byte
`\x03` or one of the single-character formatting markers. -/
def isCtrlChar (c : Char) : Bool :=
  c == Char.ofNat 3 || isFormattingCtrl c

theorem mem_removeColorCodes_not_ctrl :
    ∀ (n : Nat) (l : List Char), l.length ≤ n →
      ∀ c ∈ removeColorCodes l, isCtrlChar c = false := by
  intro n
  induction n with
  | zero =>
    intro l hl c hc
    have : l = [] := List.eq_nil_of_length_eq_zero (Nat.le_zero.mp hl)
    subst this
    simp [removeColorCodes] at hc
  | succ n ih =>
    intro l hl c hc
    match l with
    | [] => simp [removeColorCodes] at hc
    | x :: rest =>
      simp only [removeColorCodes] at hc
      simp only [List.length_cons] at hl
      split at hc
      · exact ih (dropColorArgs rest)
          (Nat.le_trans (dropColorArgs_length_le rest) (Nat.le_of_succ_le_succ hl)) c hc
      · split at hc
        · exact ih rest (Nat.le_of_succ_le_succ hl) c hc
        · rename_i h3 hf
          rcases List.mem_cons.mp hc with rfl | hc'
          · simp only [isCtrlChar, Bool.or_eq_false_iff]
            exact ⟨Bool.not_eq_true _ ▸ Bool.of_not_eq_true h3,
                   Bool.of_not_eq_true hf⟩
          · exact ih rest (Nat.le_of_succ_le_succ hl) c hc'

theorem removeColorCodes_eq_self (l : List Char)
    (h : ∀ c ∈ l, isCtrlChar c = false) : removeColorCodes l = l := by
  induction l with
  | nil => simp [removeColorCodes]
  | cons x rest ih =>
    have hx := h x (List.mem_cons_self x rest)
    simp only [isCtrlChar, Bool.or_eq_false_iff] at hx
    simp only [removeColorCodes, hx.1, hx.2, if_false, Bool.false_eq_true]
    rw [ih (fun c hc => h c (List.mem_cons_of_mem x hc))]

theorem dropWhile_head_false {α : Type} (p : α → Bool) (l : List α) (x : α)
    (rest : List α) (h : l.dropWhile p = x :: rest) : p x = false := by
  induction l with
  | nil => simp [List.dropWhile] at h
  | cons a t ih =>
    simp only [List.dropWhile] at h
    split at h
    · exact ih h
    · rename_i ha
      cases h
      exact ha

theorem dropWhile_idem {α : Type} (p : α → Bool) (l : List α) :
    (l.dropWhile p).dropWhile p = l.dropWhile p := by
  cases hd : l.dropWhile p with
  | nil => rfl
  | cons x rest =>
    have hx := dropWhile_head_false p l x rest hd
    simp [List.dropWhile, hx]

theorem dropWhile_isSuffix {α : Type} (p : α → Bool) (l : List α) :
    ∃ t, t ++ l.dropWhile p = l := by
  induction l with
  | nil => exact ⟨[], rfl⟩
  | cons a t ih =>
    simp only [List.dropWhile]
    split
    · obtain ⟨u, hu⟩ := ih
      exact ⟨a :: u, by simp [hu]⟩
    · exact ⟨[], rfl⟩

theorem trimSpace_idem (l : List Char) : trimSpace (trimSpace l) = trimSpace l := by
  unfold trimSpace
  generalize hA : l.dropWhile isSpaceChar = A at *
  -- the left-trimmed part: its head (if any) is not white space
  have h1 : (((A.reverse.dropWhile isSpaceChar).reverse).dropWhile isSpaceChar)
      = (A.reverse.dropWhile isSpaceChar).reverse := by
    cases hm : (A.reverse.dropWhile isSpaceChar).reverse with
    | nil => rfl
    | cons x m =>
      obtain ⟨t, ht⟩ := dropWhile_isSuffix isSpaceChar A.reverse
      -- A = (dropWhile ... A.reverse).reverse ++ t.reverse, so A starts with x
      have hApp : (A.reverse.dropWhile isSpaceChar).reverse ++ t.reverse = A := by
        have := congrArg List.reverse ht
        simpa [List.reverse_append] using this
      have hxA : A = x :: (m ++ t.reverse) := by
        rw [← hApp, hm]
        simp
      have hx : isSpaceChar x = false := by
        apply dropWhile_head_false isSpaceChar l x (m ++ t.reverse)
        rw [hA, hxA]
      simp [List.dropWhile, hx]
  rw [h1, List.reverse_reverse, dropWhile_idem]

theorem mem_trimSpace_mem (l : List Char) (c : Char) (h : c ∈ trimSpace l) : c ∈ l := by
  unfold trimSpace at h
  rw [List.mem_reverse] at h
  obtain ⟨t1, ht1⟩ := dropWhile_isSuffix isSpaceChar (l.dropWhile isSpaceChar).reverse
  have h2 : c ∈ (l.dropWhile isSpaceChar).reverse := by
    rw [← ht1]
    exact List.mem_append_right t1 h
  rw [List.mem_reverse] at h2
  obtain ⟨t2, ht2⟩ := dropWhile_isSuffix isSpaceChar l
  rw [← ht2]
  exact List.mem_append_right t2 h2

/- ===================== internal/api: stream processor ===================== -/

/-- Model of `ConnectionState` (`client.go`). -/
inductive ConnectionState
  | stateDisconnected
  | stateConnecting
  | stateConnected
  | stateReconnecting
  | stateError
deriving Repr, DecidableEq

/-- Model of `IRCMessage` (`client.go`): the decoded frame.  `From` keeps the Go
field name; the untyped `Ops` metadata map is unused by the verified logic
and omitted. -/
structure IRCMessage where
  type : String
  chan : String
  From : String
  msg : String
  time : Int
  eid : Int
  bid : Int
  server : String := ""
  nick : String := ""
  hostmask : String := ""
  self : Bool := false
deriving Repr, DecidableEq

/-- The fields of `IRCCloudClient` (`client.go`) that the message-processing
path reads or writes, plus the database table the client writes through. -/
structure ClientState where
  lastSeenEID : Int
  eidCache : List Int
  maxCacheSize : Nat
  channels : List String
  ignoredChannels : List String
  state : ConnectionState
  rows : MessageTable
deriving Repr

/-- Model of `isEIDSeen` (`client.go`): answer whether `eid` is cached, and mark it
seen; when the cache then exceeds `maxCacheSize`, evict `maxCacheSize/5`
entries.  The Go map iterates in an unspecified order; eviction is modelled
as dropping the oldest entries (the source comment calls the cleanup
"simple FIFO-ish"). -/
def isEIDSeen (s : ClientState) (eid : Int) : Bool × ClientState :=
  if s.eidCache.contains eid then
    (true, s)
  else
    let cache0 := s.eidCache ++ [eid]
    let cache1 := if cache0.length > s.maxCacheSize
      then cache0.drop (s.maxCacheSize / 5) else cache0
    (false, { s with eidCache := cache1 })

/-- Timestamp resolution in `processMessage` / `processBacklog`:
`ircMsg.Time` is microseconds since the epoch; a positive value converts
exactly to `Time`·1000 nanoseconds (seconds·10⁹ + microseconds·10³), and
`Time <= 0` falls back to the receipt time `now` (`time.Now()`). -/
def resolveTimestampNs (timeUs now : Int) : Int :=
  if timeUs > 0 then timeUs * 1000 else now

/-- Model of `msgTime.Format("2006-01-02")`: the day bucket of the resolved
timestamp.  No verified claim inspects the rendered text, so calendar
rendering is abstracted to the UTC day index since the epoch. -/
def formatDate (ns : Int) : String :=
  toString (ns / 86400000000000)

/-- The `storage.Message` literal that `processMessage` builds for an
accepted event: channel, resolved timestamp, sender, cleaned body and day
bucket.  (The websocket caller also writes the event id into an `EID`
field, but the `storage.Message` schema declares no such column — see the
C1 analysis.)  The row id is assigned by the insert. -/
def mkDbMessage (m : IRCMessage) (now : Int) : Message :=
  { id := 0
    channel := m.chan
    timestamp := resolveTimestampNs m.time now
    sender := m.From
    message := CleanIRCMessage m.msg
    date := formatDate (resolveTimestampNs m.time now) }

/-- Model of `processBacklog` (`websocket.go`) applied to an already fetched and
decoded batch: skip events failing the channel filter, clean and insert the
rest.  The backlog path performs no cache check and never touches
`lastSeenEID`. -/
def processBacklog (s : ClientState) (now : Int) (batch : List IRCMessage) : ClientState :=
  batch.foldl
    (fun st m =>
      if skipsBacklog st.channels st.ignoredChannels m.type m.chan then st
      else { st with rows := insertMessage st.rows (mkDbMessage m now) })
    s

/-- One WebSocket frame as consumed by `processMessage`: `malformed` is a
frame whose bytes fail to unmarshal; `oobInclude` is a frame with
`"type":"oob_include"`, carrying the backlog batch its URL resolves to (the
HTTP fetch itself is outside the model); `event` is any other decoded
frame. -/
inductive Frame
  | malformed
  | oobInclude (batch : List IRCMessage)
  | event (m : IRCMessage)
deriving Repr

/-- The error a single `processMessage` call can report. -/
inductive ProcError
  | unmarshal
deriving Repr, DecidableEq

/-- Model of `processMessage` (`websocket.go`): an unmarshal failure is returned as a
local error with the client untouched; `oob_include` frames dispatch to the
backlog path; live `buffer_msg` frames pass the admission filter, then the
duplicate check, and are otherwise cleaned, timestamped, inserted, and
raise `lastSeenEID`.  The insert into the pure table model always
succeeds. -/
def processMessage (s : ClientState) (now : Int) (f : Frame) :
    Except ProcError Unit × ClientState :=
  match f with
  | .malformed => (.error .unmarshal, s)
  | .oobInclude batch => (.ok (), processBacklog s now batch)
  | .event m =>
    if acceptsLive s.channels s.ignoredChannels m.type m.chan then
      let r := isEIDSeen s m.eid
      if r.1 then (.ok (), r.2)
      else
        let s2 := { r.2 with rows := insertMessage r.2.rows (mkDbMessage m now) }
        let s3 := if m.eid > s2.lastSeenEID
          then { s2 with lastSeenEID := m.eid } else s2
        (.ok (), s3)
    else
      (.ok (), s)

/-- The message-reading loop of `runMessageLoop` (`websocket.go`) on a
finite frame sequence: frames are processed in arrival order, each with its
receipt time, and per-frame errors do not stop the loop. -/
def runFrames (s : ClientState) (frames : List (Int × Frame)) : ClientState :=
  frames.foldl (fun st nf => (processMessage st nf.1 nf.2).2) s

/-- The outgoing heartbeat object built by `sendHeartbeat` (`websocket.go`):
`{"_method":"heartbeat","_reqid":<unix seconds>,"last_seen_eid":<lastSeenEID>}`. -/
structure HeartbeatFrame where
  method : String
  reqid : Int
  lastSeenEid : Int
deriving Repr, DecidableEq

/-- Model of `sendHeartbeat` (`websocket.go`), returning the frame it writes. -/
def sendHeartbeat (s : ClientState) (nowUnix : Int) : HeartbeatFrame :=
  { method := "heartbeat", reqid := nowUnix, lastSeenEid := s.lastSeenEID }

/-- Spec-side instrumentation for C7: the event id a frame persists through
the live path from state `s` — `some m.eid` exactly when the frame is an
accepted, not-yet-cached `buffer_msg`, `none` otherwise. -/
def liveEID (s : ClientState) (f : Frame) : Option Int :=
  match f with
  | .event m =>
    if acceptsLive s.channels s.ignoredChannels m.type m.chan
        && !(s.eidCache.contains m.eid) then some m.eid else none
  | _ => none

/-- The event ids persisted through the live path along a run. -/
def liveEIDs (s : ClientState) (frames : List (Int × Frame)) : List Int :=
  match frames with
  | [] => []
  | (now, f) :: fs => (liveEID s f).toList ++ liveEIDs (processMessage s now f).2 fs

/- ===================== claims ===================== -/

/-- Concrete events for the C1 analysis: identical `eid`, all other fields
different. -/
def c1_eventA : IRCMessage :=
  { type := "buffer_msg", chan := "#chanA", From := "alice", msg := "first body",
    time := 1700000000000000, eid := 42, bid := 1 }

/-- Second C1 event, same `eid` as `c1_eventA`. -/
def c1_eventB : IRCMessage :=
  { type := "buffer_msg", chan := "#chanB", From := "bob", msg := "second body",
    time := 1700000000000001, eid := 42, bid := 2 }

/-- C1: the claim states that inserting two Persisted Messages with equal
eventID through the storage layer yields exactly one stored row.  The code
contradicts it: the `messages` schema (`createSchema`) has no event-id
column and `InsertMessage` is an unconditional INSERT, so the two inserts
driven by events with the same eventID (42) materialise two rows. -/
theorem c1_insert_not_idempotent_on_eventID :
    c1_eventA.eid = c1_eventB.eid ∧
    (insertMessage (insertMessage [] (mkDbMessage c1_eventA 0))
        (mkDbMessage c1_eventB 0)).length = 2 :=
  ⟨rfl, rfl⟩

/-- C3 counterexample: the claim says the delay is 30s for *every*
retryCount ≥ 5, but at retryCount = 34 the product
`float64(1s)·2^34 = 17179869184s·10⁹` exceeds int64, the `time.Duration`
conversion overflows (gc on amd64 yields minInt64), and the computed delay
is the most negative int64 — negative, not 30s. -/
theorem c3_counterexample_overflow :
    5 ≤ 34 ∧
    calculateBackoffDelay 1000000000 30000000000 2 34 = int64Min ∧
    calculateBackoffDelay 1000000000 30000000000 2 34 ≠ 30000000000 := by
  refine ⟨by norm_num, by decide, by decide⟩

/-- C3 (amended): the backoff is a pure function of (retryCount, config);
with initialDelay=1s, multiplier=2.0, maxDelay=30s the delays for
retryCount 0..5 are exactly [1s,2s,4s,8s,16s,30s] and the delay is 30s for
every retryCount from 5 through 33; from retryCount 34 on the float64
product no longer fits in int64 and the conversion overflows (on the
modelled gc/amd64 target the delay becomes minInt64, i.e. negative). -/
theorem c3_backoff_delays (k : Nat) (hk5 : 5 ≤ k) :
    ((List.range 6).map (calculateBackoffDelay 1000000000 30000000000 2) =
      [1000000000, 2000000000, 4000000000, 8000000000,
       16000000000, 30000000000]) ∧
    (k ≤ 33 → calculateBackoffDelay 1000000000 30000000000 2 k = 30000000000) ∧
    (34 ≤ k → calculateBackoffDelay 1000000000 30000000000 2 k = int64Min) := by
  refine ⟨by decide, ?_, ?_⟩
  · intro hk33
    have hlo : (32 : Int) ≤ 2 ^ k := by
      calc (32 : Int) = 2 ^ 5 := by norm_num
        _ ≤ 2 ^ k := pow_le_pow_right₀ (by norm_num) hk5
    have hhi : (2 : Int) ^ k ≤ 8589934592 := by
      calc (2 : Int) ^ k ≤ 2 ^ 33 := pow_le_pow_right₀ (by norm_num) hk33
        _ = 8589934592 := by norm_num
    unfold calculateBackoffDelay float64ToInt64 int64Min int64Max
    rw [if_pos (by constructor <;> nlinarith)]
    exact min_eq_right (by nlinarith)
  · intro hk34
    have hlo : (17179869184 : Int) ≤ 2 ^ k := by
      calc (17179869184 : Int) = 2 ^ 34 := by norm_num
        _ ≤ 2 ^ k := pow_le_pow_right₀ (by norm_num) hk34
    unfold calculateBackoffDelay float64ToInt64 int64Min int64Max
    rw [if_neg (by rintro ⟨-, h2⟩; nlinarith)]
    exact min_eq_left (by norm_num)

/-- Witness for C3 at retryCount 20 (capped range) and 40 (overflow). -/
theorem c3_backoff_delays_witness :
    calculateBackoffDelay 1000000000 30000000000 2 20 = 30000000000 ∧
    calculateBackoffDelay 1000000000 30000000000 2 40 = int64Min :=
  ⟨(c3_backoff_delays 20 (by norm_num)).2.1 (by norm_num),
   (c3_backoff_delays 40 (by norm_num)).2.2 (by norm_num)⟩

/-- C4: a live message is accepted iff its channel is not in the deny-list
and (the allow-list is empty or its channel is in the allow-list); with
allow-list ∅ and deny-list {"#spam"}, "#spam" is rejected and any other
channel accepted; with allow-list {"#a"}, "#b" is rejected although not
denied. -/
theorem c4_admission_filter :
    (∀ (channels ignoredChannels : List String) (ch : String),
        acceptsLive channels ignoredChannels ("buffer_msg") ch = true ↔
          (ch ∉ ignoredChannels ∧ (channels = [] ∨ ch ∈ channels))) ∧
    acceptsLive [] ["#spam"] ("buffer_msg") ("#spam") = false ∧
    (∀ ch : String, ch ≠ "#spam" →
        acceptsLive [] ["#spam"] ("buffer_msg") ch = true) ∧
    acceptsLive ["#a"] [] ("buffer_msg") ("#b") = false := by
  refine ⟨?_, by decide, ?_, by decide⟩
  · intro channels ign ch
    simp [acceptsLive, List.isEmpty_iff]
  · intro ch h
    simp [acceptsLive, h]

/-- Witness for C4 at channel "#other". -/
theorem c4_admission_filter_witness :
    acceptsLive [] ["#spam"] ("buffer_msg") ("#other") = true :=
  c4_admission_filter.2.2.1 ("#other") (by decide)

/-- C5: the backfill skip condition is the exact logical negation of the
live-path acceptance condition, for every event type, channel, allow-list
and deny-list — channel admission is identical on both paths. -/
theorem c5_backfill_filter_negates_live :
    ∀ (channels ignoredChannels : List String) (ty ch : String),
      skipsBacklog channels ignoredChannels ty ch =
        !(acceptsLive channels ignoredChannels ty ch) := by
  intro channels ign ty ch
  simp only [skipsBacklog, acceptsLive, bne]
  cases ty == "buffer_msg" <;> cases ign.contains ch <;>
    cases channels.isEmpty <;> cases channels.contains ch <;> rfl

/-- C6: the cleaner is total (it is a function defined on every string) and
idempotent: cleaning already-cleaned text is a no-op. -/
theorem c6_cleaner_idempotent :
    ∀ s : String, CleanIRCMessage (CleanIRCMessage s) = CleanIRCMessage s := by
  intro s
  show String.mk (trimSpace (removeColorCodes
      (trimSpace (removeColorCodes s.data)))) =
    String.mk (trimSpace (removeColorCodes s.data))
  have hmem : ∀ c ∈ trimSpace (removeColorCodes s.data), isCtrlChar c = false :=
    fun c hc =>
      mem_removeColorCodes_not_ctrl s.data.length s.data (Nat.le_refl _) c
        (mem_trimSpace_mem _ c hc)
  rw [removeColorCodes_eq_self _ hmem, trimSpace_idem]

/-- C8 counterexample: the claim asserts the concatenated URL for *every*
non-empty host and path, but the host "a b" (both non-empty, path
"/websocket/2") makes `url.Parse` fail — a space is an invalid host-name
character — so the code returns the fallback URL, which differs from the
claimed concatenation. -/
theorem c8_counterexample_parse_failure :
    buildWebSocketURL ("a b") ("/websocket/2") = some fallbackWebSocketURL ∧
    fallbackWebSocketURL ≠
      "wss://" ++ "a b" ++ "/websocket/2" ++ "?since_id=0&stream_id=0" := by
  refine ⟨by decide, by decide⟩

/-- C8 (amended): for a non-empty host of plain host characters and a
non-empty path starting with `/` made of plain path characters — the shape
the service hands out, e.g. the spec's example — the builder returns
`wss://{host}{path}?since_id=0&stream_id=0`; an empty host or empty path
yields the documented fallback URL, and so does a host that `url.Parse`
rejects. -/
theorem c8_buildWebSocketURL_spec :
    buildWebSocketURL ("api-2.example.com") ("/websocket/2") =
        some "wss://api-2.example.com/websocket/2?since_id=0&stream_id=0" ∧
    (∀ host path : String, host ≠ "" → path ≠ "" →
        host.data.all isSimpleHostChar = true →
        (path.data.head? == some '/') = true →
        path.data.all isSimplePathChar = true →
        buildWebSocketURL host path =
          some ("wss://" ++ host ++ path ++ "?since_id=0&stream_id=0")) ∧
    (∀ path : String, buildWebSocketURL ("") path = some fallbackWebSocketURL) ∧
    (∀ host : String, buildWebSocketURL host ("") = some fallbackWebSocketURL) := by
  refine ⟨by decide, ?_, ?_, ?_⟩
  · intro host path h1 h2 hh hs hp
    simp [buildWebSocketURL, h1, h2, hh, hs, hp]
  · intro path
    simp [buildWebSocketURL]
  · intro host
    simp [buildWebSocketURL]

/-- Witness for C8 on a plain non-empty host and path. -/
theorem c8_buildWebSocketURL_witness :
    buildWebSocketURL ("h") ("/p") =
      some ("wss://" ++ "h" ++ "/p" ++ "?since_id=0&stream_id=0") :=
  c8_buildWebSocketURL_spec.2.1 ("h") ("/p") (by decide) (by decide)
    (by decide) (by decide) (by decide)

/-- C9: a malformed frame is a local, non-fatal error: `processMessage`
reports an unmarshal error and leaves the whole client state (rows, dedup
cache, lastSeenEID, connection state) unchanged, and the read loop keeps
processing the remaining frames — dropping the malformed frame from any
sequence leaves the final state unchanged. -/
theorem c9_malformed_frame_is_local :
    (∀ (s : ClientState) (now : Int),
        processMessage s now Frame.malformed =
          (Except.error ProcError.unmarshal, s)) ∧
    (∀ (s : ClientState) (now : Int) (fs1 fs2 : List (Int × Frame)),
        runFrames s (fs1 ++ (now, Frame.malformed) :: fs2) =
          runFrames s (fs1 ++ fs2)) := by
  constructor
  · intro s now
    rfl
  · intro s now fs1 fs2
    induction fs1 generalizing s with
    | nil => rfl
    | cons a as ih =>
      show runFrames ((processMessage s a.1 a.2).2)
          (as ++ (now, Frame.malformed) :: fs2) =
        runFrames ((processMessage s a.1 a.2).2) (as ++ fs2)
      exact ih _

/-- C10: deleting a date then querying it gives no rows, and the delete
removes exactly the rows of that date: queries for any other date are
unchanged, and a row survives iff it was stored and its date differs. -/
theorem c10_delete_by_date_frame :
    (∀ (rows : MessageTable) (d : String),
        getMessagesByDate (deleteMessagesByDate rows d) d = []) ∧
    (∀ (rows : MessageTable) (d d' : String), d' ≠ d →
        getMessagesByDate (deleteMessagesByDate rows d) d' =
          getMessagesByDate rows d') ∧
    (∀ (rows : MessageTable) (d : String) (m : Message),
        m ∈ deleteMessagesByDate rows d ↔ (m ∈ rows ∧ m.date ≠ d)) := by
  refine ⟨?_, ?_, ?_⟩
  · intro rows d
    simp only [getMessagesByDate, deleteMessagesByDate, List.filter_filter]
    apply List.filter_eq_nil_iff.mpr
    intro m _
    simp [bne]
  · intro rows d d' hne
    simp only [getMessagesByDate, deleteMessagesByDate, List.filter_filter]
    apply List.filter_congr
    intro m _
    by_cases h : m.date = d'
    · subst h
      simp [bne, hne]
    · simp [h]
  · intro rows d m
    simp [deleteMessagesByDate, List.mem_filter, bne_iff_ne]

/- ------------- C2: de-duplication and end-to-end scenario ------------- -/

/-- Initial client state for the C2 scenario: empty allow-list (accept all),
deny-list {"#spam"}, empty cache and table. -/
def c2_s0 : ClientState :=
  { lastSeenEID := 0, eidCache := [], maxCacheSize := 10000, channels := [],
    ignoredChannels := ["#spam"], state := .stateConnected, rows := [] }

/-- C2 frame 1: a valid `buffer_msg` on an allowed channel, with colour
codes in the body. -/
def c2_m1 : IRCMessage :=
  { type := "buffer_msg", chan := "#a", From := "alice",
    msg := "\x0307hi there\x0F", time := 0, eid := 100, bid := 1 }

/-- C2 frame 2: a duplicate carrying the same eventID as frame 1. -/
def c2_m2 : IRCMessage :=
  { type := "buffer_msg", chan := "#a", From := "bob", msg := "dup",
    time := 0, eid := 100, bid := 1 }

/-- C2 frame 3: a `buffer_msg` on the denied channel. -/
def c2_m3 : IRCMessage :=
  { type := "buffer_msg", chan := "#spam", From := "carol", msg := "spam",
    time := 0, eid := 101, bid := 2 }

/-- C2: an accepted live event whose eventID is already cached is dropped
with the entire client state unchanged, and the three-frame scenario
(valid frame, duplicate eventID, denied channel) persists exactly one row,
whose channel and body are the first frame's channel and cleaned body. -/
theorem c2_dedup_drop_and_scenario :
    (∀ (s : ClientState) (now : Int) (m : IRCMessage),
        acceptsLive s.channels s.ignoredChannels m.type m.chan = true →
        s.eidCache.contains m.eid = true →
        (processMessage s now (Frame.event m)).1 = Except.ok () ∧
        (processMessage s now (Frame.event m)).2 = s) ∧
    (runFrames c2_s0 [(10, Frame.event c2_m1), (20, Frame.event c2_m2),
        (30, Frame.event c2_m3)]).rows.map (fun r => (r.channel, r.message)) =
      [(c2_m1.chan, CleanIRCMessage c2_m1.msg)] := by
  constructor
  · intro s now m ha hc
    have hc' : m.eid ∈ s.eidCache := by simpa using hc
    constructor <;> simp [processMessage, ha, isEIDSeen, hc']
  · rfl

/-- Client state for the C2 witness: eventID 7 already cached. -/
def c2_witState : ClientState :=
  { lastSeenEID := 0, eidCache := [7], maxCacheSize := 10000, channels := [],
    ignoredChannels := [], state := .stateConnected, rows := [] }

/-- Event for the C2 witness: accepted, eventID 7. -/
def c2_witMsg : IRCMessage :=
  { type := "buffer_msg", chan := "#x", From := "u", msg := "m",
    time := 0, eid := 7, bid := 0 }

/-- Witness for C2: the cached duplicate is dropped with state unchanged. -/
theorem c2_dedup_drop_witness :
    (processMessage c2_witState 5 (Frame.event c2_witMsg)).1 = Except.ok () ∧
    (processMessage c2_witState 5 (Frame.event c2_witMsg)).2 = c2_witState :=
  c2_dedup_drop_and_scenario.1 c2_witState 5 c2_witMsg (by decide) (by decide)

/- ------------- C7: lastSeenEID tracking ------------- -/

theorem processBacklog_lastSeenEID (batch : List IRCMessage) (s : ClientState)
    (now : Int) : (processBacklog s now batch).lastSeenEID = s.lastSeenEID := by
  induction batch generalizing s with
  | nil => rfl
  | cons m ms ih =>
    show (processBacklog (if skipsBacklog s.channels s.ignoredChannels m.type m.chan
        then s else { s with rows := insertMessage s.rows (mkDbMessage m now) })
        now ms).lastSeenEID = s.lastSeenEID
    rw [ih]
    split <;> rfl

theorem processMessage_lastSeenEID_step (s : ClientState) (now : Int) (f : Frame) :
    (processMessage s now f).2.lastSeenEID =
      match liveEID s f with
      | some e => max s.lastSeenEID e
      | none => s.lastSeenEID := by
  cases f with
  | malformed => rfl
  | oobInclude batch => exact processBacklog_lastSeenEID batch s now
  | event m =>
    cases hacc : acceptsLive s.channels s.ignoredChannels m.type m.chan with
    | false => simp [processMessage, liveEID, hacc]
    | true =>
      by_cases hc : m.eid ∈ s.eidCache
      · have hcb : s.eidCache.contains m.eid = true := by simpa using hc
        simp [processMessage, liveEID, isEIDSeen, hacc, hcb, hc]
      · have hcb : s.eidCache.contains m.eid = false := by simpa using hc
        simp only [processMessage, liveEID, isEIDSeen, hacc, hcb, if_neg hc,
          Bool.not_false, Bool.and_true, if_true, if_false, Bool.false_eq_true,
          Bool.and_self]
        split
        · rename_i hgt
          exact (max_eq_right (Int.le_of_lt hgt)).symm
        · rename_i hle
          exact (max_eq_left (Int.not_lt.mp hle)).symm

theorem runFrames_lastSeenEID (s : ClientState) (frames : List (Int × Frame)) :
    (runFrames s frames).lastSeenEID =
      (liveEIDs s frames).foldl max s.lastSeenEID := by
  induction frames generalizing s with
  | nil => rfl
  | cons a fs ih =>
    obtain ⟨now, f⟩ := a
    show (runFrames (processMessage s now f).2 fs).lastSeenEID =
      ((liveEID s f).toList ++ liveEIDs (processMessage s now f).2 fs).foldl
        max s.lastSeenEID
    have hstep := processMessage_lastSeenEID_step s now f
    cases hle : liveEID s f with
    | none =>
      rw [hle] at hstep
      simp only [Option.toList, List.nil_append]
      rw [ih, hstep]
    | some e =>
      rw [hle] at hstep
      simp only [Option.toList, List.singleton_append, List.foldl_cons]
      rw [ih, hstep]

theorem runFrames_lastSeenEID_mono (s : ClientState)
    (frames : List (Int × Frame)) :
    s.lastSeenEID ≤ (runFrames s frames).lastSeenEID := by
  induction frames generalizing s with
  | nil => exact le_refl _
  | cons a fs ih =>
    obtain ⟨now, f⟩ := a
    have h1 : s.lastSeenEID ≤ (processMessage s now f).2.lastSeenEID := by
      rw [processMessage_lastSeenEID_step]
      cases liveEID s f with
      | none => exact le_refl _
      | some e => exact le_max_left _ _
    exact le_trans h1 (ih _)

/-- Initial state for the C7 counterexample. -/
def c7_s0 : ClientState :=
  { lastSeenEID := 0, eidCache := [], maxCacheSize := 10000, channels := [],
    ignoredChannels := ["#spam"], state := .stateConnected, rows := [] }

/-- C7 counterexample frame: a `buffer_msg` on the denied channel with
eventID 100. -/
def c7_msg : IRCMessage :=
  { type := "buffer_msg", chan := "#spam", From := "dave", msg := "big eid",
    time := 0, eid := 100, bid := 3 }

/-- C7 counterexample: the claim says `lastSeenEID` is the maximum of its
initial value and *every* processed event's eventID.  Processing a single
frame that the admission filter rejects (denied channel, eventID 100)
leaves `lastSeenEID` at 0, not at `max 0 100`. -/
theorem c7_counterexample_filtered_event :
    (runFrames c7_s0 [(1, Frame.event c7_msg)]).lastSeenEID = 0 ∧
    (runFrames c7_s0 [(1, Frame.event c7_msg)]).lastSeenEID ≠
      max c7_s0.lastSeenEID c7_msg.eid := by
  constructor <;> decide

/-- C7 (amended): after any frame sequence, `lastSeenEID` is the maximum of
its initial value and the eventIDs of the events the live path accepted and
persisted (events rejected by the filter, cached duplicates, backfilled
events and malformed frames do not update it); it never decreases; and
every outgoing heartbeat frame carries it as `last_seen_eid`. -/
theorem c7_lastSeenEID_invariant :
    (∀ (s : ClientState) (frames : List (Int × Frame)),
        (runFrames s frames).lastSeenEID =
          (liveEIDs s frames).foldl max s.lastSeenEID) ∧
    (∀ (s : ClientState) (frames : List (Int × Frame)),
        s.lastSeenEID ≤ (runFrames s frames).lastSeenEID) ∧
    (∀ (s : ClientState) (nowUnix : Int),
        sendHeartbeat s nowUnix =
          { method := "heartbeat", reqid := nowUnix,
            lastSeenEid := s.lastSeenEID }) :=
  ⟨runFrames_lastSeenEID, runFrames_lastSeenEID_mono, fun _ _ => rfl⟩

/-- Concrete table for the C10 witness: one row per date. -/
def c10_rows : MessageTable :=
  [ { id := 1, channel := "#a", timestamp := 0, sender := "s1",
      message := "m1", date := "2024-01-01" },
    { id := 2, channel := "#b", timestamp := 1, sender := "s2",
      message := "m2", date := "2024-01-02" } ]

/-- Witness for C10: deleting 2024-01-01 leaves the 2024-01-02 query
unchanged. -/
theorem c10_delete_by_date_frame_witness :
    getMessagesByDate (deleteMessagesByDate c10_rows ("2024-01-01"))
        ("2024-01-02") =
      getMessagesByDate c10_rows ("2024-01-02") :=
  c10_delete_by_date_frame.2.1 c10_rows ("2024-01-01") ("2024-01-02") (by decide)
